import Mathlib

/-!
Verification of the forecasting core of the Portfolio-Management-Optimization
repository: a shallow embedding of the data-preparation, recursive LSTM
forecasting, metric, pipeline-orchestration and model-registry functions,
with theorems settling the specified behavioural properties.

Conventions: numpy float arrays are embedded as `List ℚ` (or `List ℝ` where
square roots occur); pandas date indices as `ℕ`; Python dicts as
association lists with first-occurrence overwrite semantics.
-/

namespace PMO

/-- Python dict lookup: first binding of the key, if any. -/
def dictGet : List (String × α) → String → Option α
  | [], _ => none
  | p :: rest, k => if p.1 = k then some p.2 else dictGet rest k

/-- Python dict assignment `d[k] = v`: replace the first binding of `k`
in place (keeping its position), or append a new binding. -/
def dictSet : List (String × α) → String → α → List (String × α)
  | [], k, v => [(k, v)]
  | p :: rest, k, v => if p.1 = k then (k, v) :: rest else p :: dictSet rest k v

/-- A `logging` event emitted by a registry or pipeline call. -/
inductive LogEvent
  | warning (msg : String)
  | info (msg : String)
deriving DecidableEq

/-- Whether a log event is a warning. -/
def LogEvent.isWarning : LogEvent → Bool
  | .warning _ => true
  | .info _ => false

/-! ## Recursive LSTM forecasting (`forecasting/lstm/recursive.py`)

A seed window of shape `(1, W, 1)` is embedded as a `List ℚ` of length `W`,
and `model.predict(window)[0, 0]` as applying a function `List ℚ → ℚ`. -/

/-- `np.roll(window, -1, axis=1)` on a single-row window: rotate left by one. -/
def rollLeft (l : List ℚ) : List ℚ := l.drop 1 ++ l.take 1

/-- `window[0, -1, 0] = v`: overwrite the last slot of the window. -/
def setLast (l : List ℚ) (v : ℚ) : List ℚ := l.take (l.length - 1) ++ [v]

/-- The `for _ in range(n_steps)` loop of `recursive_lstm_forecast`,
with state `(window, preds)`: predict from the current window, record the
prediction, then shift the window left and place the prediction last. -/
def forecastLoop (m : List ℚ → ℚ) : ℕ → List ℚ × List ℚ → List ℚ × List ℚ
  | 0, s => s
  | n + 1, (window, preds) =>
      forecastLoop m n (setLast (rollLeft window) (m window), preds ++ [m window])

/-- `recursive_lstm_forecast(model, seed_window, n_steps)`: the list of
predictions produced by the recursive loop started from a copy of the seed. -/
def recursive_lstm_forecast (m : List ℚ → ℚ) (seed : List ℚ) (n : ℕ) : List ℚ :=
  (forecastLoop m n (seed, [])).2

/-- The window handed to `model.predict` at (0-indexed) iteration `k`:
the window component of the loop state after `k` iterations. -/
def windowAt (m : List ℚ → ℚ) (seed : List ℚ) (k : ℕ) : List ℚ :=
  (forecastLoop m k (seed, [])).1

/-! Heap-level embedding of the same function, keeping numpy buffers explicit
so that the frame effect on the caller's `seed_window` buffer is visible.
The heap is a list of buffers addressed by position; `np.roll` allocates a
fresh buffer, while `window[0, -1, 0] = v` mutates the current buffer. -/

/-- Loop body of `recursive_lstm_forecast` over an explicit heap of numpy
buffers; state is `(heap, window buffer id, preds)`. Each iteration reads the
window buffer, allocates a rolled copy (as `np.roll` does), then mutates the
fresh buffer's last slot in place. -/
def heapLoop (m : List ℚ → ℚ) :
    ℕ → List (List ℚ) × ℕ × List ℚ → List (List ℚ) × ℕ × List ℚ
  | 0, s => s
  | n + 1, (heap, wid, preds) =>
      let window := heap.getD wid []
      let next := m window
      let heap1 := heap ++ [rollLeft window]
      let wid1 := heap.length
      heapLoop m n (heap1.set wid1 (setLast (heap1.getD wid1 []) next), wid1, preds ++ [next])

/-- `recursive_lstm_forecast` at heap level: `window = seed_window.copy()`
allocates a fresh buffer, then the loop runs on it. Returns the final heap
and the predictions. -/
def recursive_lstm_forecast_heap (m : List ℚ → ℚ) (heap : List (List ℚ))
    (seedId : ℕ) (n : ℕ) : List (List ℚ) × List ℚ :=
  let heap1 := heap ++ [heap.getD seedId []]
  let s := heapLoop m n (heap1, heap.length, [])
  (s.1, s.2.2)

/-! ## Supervised windows (`forecasting/data_preparation.py`, both variants) -/

/-- `create_sequences(data, window_size)`: for `i` in
`range(window_size, len(data))`, window `data[i-window_size:i]` with target
`data[i]`. Returns `(X, y)`; the trailing `reshape(-1, window_size, 1)` is
shape bookkeeping with no content and is omitted. -/
def create_sequences (data : List ℚ) (window_size : ℕ) : List (List ℚ) × List ℚ :=
  ((List.range' window_size (data.length - window_size)).map
      (fun i => (data.drop (i - window_size)).take window_size),
   (List.range' window_size (data.length - window_size)).map
      (fun i => data.getD i 0))

/-- `make_lstm_sequences(data, window)` from the `pmo_forecasting` variant:
the same loop as `create_sequences`. -/
def make_lstm_sequences (data : List ℚ) (window : ℕ) : List (List ℚ) × List ℚ :=
  ((List.range' window (data.length - window)).map
      (fun i => (data.drop (i - window)).take window),
   (List.range' window (data.length - window)).map
      (fun i => data.getD i 0))

/-! ## Data preparation (`forecasting/data_preparation.py`, both variants)

A dataframe restricted to its date column and target column is embedded as a
`List (ℕ × ℚ)` of (date, target value) rows; `pd.to_datetime` and timezone
normalisation are identity on this representation. -/

/-- Configuration slice consumed by the preparation functions:
`forecasting.data.{train_start, train_end, test_start, test_end}` and
`forecasting.lstm.window_size`. Dates are embedded as naturals. -/
structure Cfg where
  train_start : ℕ
  train_end : ℕ
  test_start : ℕ
  test_end : ℕ
  window_size : ℕ

/-- Insert a row into a date-sorted row list, keeping it sorted. -/
def insertByDate (r : ℕ × ℚ) : List (ℕ × ℚ) → List (ℕ × ℚ)
  | [] => [r]
  | s :: rest => if r.1 ≤ s.1 then r :: s :: rest else s :: insertByDate r rest

/-- `df.sort_values(date_col)`: sort of the rows by date (stable insertion
sort; pandas fixes no tie order for equal dates). -/
def sortByDate (df : List (ℕ × ℚ)) : List (ℕ × ℚ) :=
  df.foldr insertByDate []

/-- `df.loc[a:b]` on a date index: the rows with date in `[a, b]`, inclusive
on both ends. -/
def locSlice (df : List (ℕ × ℚ)) (a b : ℕ) : List (ℕ × ℚ) :=
  df.filter (fun r => decide (a ≤ r.1 ∧ r.1 ≤ b))

/-- A fitted `MinMaxScaler(feature_range=(0, 1))`: the data minimum and
maximum seen at fit time. -/
structure Scaler where
  dataMin : ℚ
  dataMax : ℚ
deriving DecidableEq

/-- sklearn's scale denominator: the data range, with zero ranges replaced
by 1 (`_handle_zeros_in_scale`). -/
def Scaler.range (s : Scaler) : ℚ :=
  if s.dataMax - s.dataMin = 0 then 1 else s.dataMax - s.dataMin

/-- `scaler.transform` of a single value for feature range (0, 1). -/
def Scaler.transform (s : Scaler) (x : ℚ) : ℚ := (x - s.dataMin) / s.range

/-- `MinMaxScaler.fit` on a nonempty value list: record min and max. -/
def fitScaler (x : ℚ) (xs : List ℚ) : Scaler :=
  { dataMin := xs.foldl min x, dataMax := xs.foldl max x }

/-- Result bundle of `prepare_data_from_df` (the `pmo_forcasting` variant). -/
structure PrepBundle where
  train_df : List (ℕ × ℚ)
  test_df : List (ℕ × ℚ)
  train_scaled : List ℚ
  test_scaled : List ℚ
  scaler : Scaler
deriving DecidableEq

/-- `prepare_data_from_df(df, config)`: sort by date, slice the inclusive
train and test date ranges, fit a min-max scaler on the train target values
only, and transform both slices. No overlap check is performed. Its
failures, surfaced by the function's `except`/`raise`, are sklearn's
`check_array` errors ("0 sample(s)", `ensure_min_samples=1`): at fit time
on an empty training slice, and at transform time on an empty test
slice. -/
def prepare_data_from_df (df : List (ℕ × ℚ)) (cfg : Cfg) : Except String PrepBundle :=
  let dfp := sortByDate df
  let train_df := locSlice dfp cfg.train_start cfg.train_end
  let test_df := locSlice dfp cfg.test_start cfg.test_end
  match train_df.map (fun r => r.2) with
  | [] => .error "Found array with 0 sample(s) while a minimum of 1 is required"
  | v :: vs =>
      let scaler := fitScaler v vs
      if test_df.map (fun r => r.2) = [] then
        .error "Found array with 0 sample(s) while a minimum of 1 is required"
      else
        .ok { train_df := train_df, test_df := test_df,
              train_scaled := (train_df.map (fun r => r.2)).map scaler.transform,
              test_scaled := (test_df.map (fun r => r.2)).map scaler.transform,
              scaler := scaler }

/-- Result bundle of `get_model_ready_data` (the `pmo_forcasting` variant):
ARIMA series plus LSTM supervised windows. -/
structure GBundle where
  arima_train : List (ℕ × ℚ)
  arima_test : List (ℕ × ℚ)
  lstm_train : List (List ℚ) × List ℚ
  lstm_test : List (List ℚ) × List ℚ
  scaler : Scaler
deriving DecidableEq

/-- `get_model_ready_data(df, config)`: prepare, then window the scaled
train and scaled test arrays separately with `create_sequences`. -/
def get_model_ready_data (df : List (ℕ × ℚ)) (cfg : Cfg) : Except String GBundle :=
  (prepare_data_from_df df cfg).map (fun prep =>
    { arima_train := prep.train_df, arima_test := prep.test_df,
      lstm_train := create_sequences prep.train_scaled cfg.window_size,
      lstm_test := create_sequences prep.test_scaled cfg.window_size,
      scaler := prep.scaler })

/-- Result bundle of `prepare_forecasting_data` (the `pmo_forecasting`
variant). -/
structure FBundle where
  y_train_raw : List (ℕ × ℚ)
  y_test_raw : List (ℕ × ℚ)
  X_train_lstm : List (List ℚ)
  y_train_lstm : List ℚ
  X_test_lstm : List (List ℚ)
  y_test_lstm : List ℚ
  scaler : Scaler
  test_index : List ℕ
deriving DecidableEq

/-- Python `arr[-w:]`: the last `min w (length arr)` entries. -/
def lastN (l : List ℚ) (w : ℕ) : List ℚ := l.drop (l.length - w)

/-- `prepare_forecasting_data(df, cfg)`: same sort/slice/scale steps —
including sklearn's transform-time "0 sample(s)" error on an empty test
slice — then test windows are built over
`np.vstack((train_scaled[-window:], test_scaled))` while train windows are
built over the scaled train values alone. -/
def prepare_forecasting_data (df : List (ℕ × ℚ)) (cfg : Cfg) : Except String FBundle :=
  let dfp := sortByDate df
  let train_df := locSlice dfp cfg.train_start cfg.train_end
  let test_df := locSlice dfp cfg.test_start cfg.test_end
  match train_df.map (fun r => r.2) with
  | [] => .error "Found array with 0 sample(s) while a minimum of 1 is required"
  | v :: vs =>
      let scaler := fitScaler v vs
      let train_scaled := (train_df.map (fun r => r.2)).map scaler.transform
      if test_df.map (fun r => r.2) = [] then
        .error "Found array with 0 sample(s) while a minimum of 1 is required"
      else
        let test_scaled := (test_df.map (fun r => r.2)).map scaler.transform
        let full_test_input := lastN train_scaled cfg.window_size ++ test_scaled
        .ok { y_train_raw := train_df, y_test_raw := test_df,
              X_train_lstm := (make_lstm_sequences train_scaled cfg.window_size).1,
              y_train_lstm := (make_lstm_sequences train_scaled cfg.window_size).2,
              X_test_lstm := (make_lstm_sequences full_test_input cfg.window_size).1,
              y_test_lstm := (make_lstm_sequences full_test_input cfg.window_size).2,
              scaler := scaler, test_index := test_df.map (fun r => r.1) }

/-! ## Pipeline orchestration (`forecasting/pipeline.py`) -/

/-- `y.index.max() >= other.index.min()` on possibly-empty series: pandas
yields NaN on empty indices and NaN comparisons are false, so the overlap
test only fires when both series are nonempty. -/
def arimaOverlap (y_train y_test : List (ℕ × ℚ)) : Bool :=
  match (y_train.map (fun r => r.1)).max?, (y_test.map (fun r => r.1)).min? with
  | some a, some b => decide (b ≤ a)
  | _, _ => false

variable {M : Type}

/-- `ForecastingPipeline._run_arima`, abstracted over everything after its
safety check: the build → train → forecast → evaluate → register tail is a
parameter `tail`, so the check's position before any model work is explicit
in the definition. -/
def run_arima (tail : List (ℕ × ℚ) → List (ℕ × ℚ) → Except String M)
    (y_train y_test : List (ℕ × ℚ)) : Except String M :=
  if arimaOverlap y_train y_test then
    .error "ARIMA train/test split overlaps in time"
  else tail y_train y_test

/-- Outcome recorded per model by `ForecastingPipeline.run`: metrics on
success, `\x7b"error": message\x7d` on exception. -/
def toRes : Except String M → M ⊕ String
  | .ok m => .inl m
  | .error e => .inr e

/-- `ForecastingPipeline.run(data_bundle)`, abstracted over the two model
runners: walk the requested model names in order; `"arima"` and `"lstm"`
dispatch to their runner with exceptions caught and recorded as
`\x7b"error": message\x7d`; any other name is skipped (warning only). -/
def pipelineRun (runA runL : Except String M) (models : List String) :
    List (String × (M ⊕ String)) :=
  models.foldl (fun results name =>
    if name = "arima" then dictSet results "arima" (toRes runA)
    else if name = "lstm" then dictSet results "lstm" (toRes runL)
    else results) []

/-! ## Confidence intervals (`forecasting/lstm/recursive.py`) -/

/-- `np.mean` of a float array. -/
noncomputable def npMean (xs : List ℝ) : ℝ := xs.sum / xs.length

/-- `np.std` of a float array: the population standard deviation. -/
noncomputable def npStd (xs : List ℝ) : ℝ :=
  Real.sqrt (npMean (xs.map (fun x => (x - npMean xs) ^ 2)))

/-- `compute_confidence_intervals(forecast, residuals, z)`: the pair
`(lower, upper)` with `lower = forecast - z * std(residuals)` and
`upper = forecast + z * std(residuals)` pointwise. -/
noncomputable def compute_confidence_intervals (forecast residuals : List ℝ)
    (z : ℝ) : List ℝ × List ℝ :=
  (forecast.map (fun f => f - z * npStd residuals),
   forecast.map (fun f => f + z * npStd residuals))

/-! ## In-memory model registry (`pmo_forcasting/forecasting/registry.py`)

`ModelRegistry` keyed by name alone, with `_models`, `_metadata` and
`_metrics` dicts; `μ` is the model-object type and `ν` the metadata-value
type. -/

structure RegistryA (μ ν : Type) where
  models : List (String × μ)
  metadata : List (String × List (String × ν))
  metrics : List (String × List (String × ℚ))

variable {μ ν : Type}

/-- The empty `ModelRegistry()`. -/
def RegistryA.empty : RegistryA μ ν := ⟨[], [], []⟩

/-- `ModelRegistry.register(name, model, metadata)`: warn when the name is
already registered, then overwrite the model and metadata bindings and reset
the name's metrics to an empty dict. Returns the new state and the log. -/
def RegistryA.register (r : RegistryA μ ν) (name : String) (model : μ)
    (metadata : List (String × ν)) : RegistryA μ ν × List LogEvent :=
  let warns := if (dictGet r.models name).isSome
    then [LogEvent.warning ("Overwriting existing model: " ++ name)] else []
  ({ models := dictSet r.models name model,
     metadata := dictSet r.metadata name metadata,
     metrics := dictSet r.metrics name [] },
   warns ++ [LogEvent.info ("Model registered: " ++ name)])

/-- `ModelRegistry.update_metrics(name, metrics)`: merge the given metric
dict into the name's metric dict; `KeyError` if the name is unregistered. -/
def RegistryA.update_metrics (r : RegistryA μ ν) (name : String)
    (ms : List (String × ℚ)) : Except String (RegistryA μ ν) :=
  if (dictGet r.models name).isSome then
    let merged := ms.foldl (fun d p => dictSet d p.1 p.2) ((dictGet r.metrics name).getD [])
    .ok { r with metrics := dictSet r.metrics name merged }
  else .error ("Model not found in registry: " ++ name)

/-- One row of `ModelRegistry.summary()`: the model name with its metadata
and metric dicts merged in. -/
def RegistryA.summary (r : RegistryA μ ν) :
    List (String × List (String × ν) × List (String × ℚ)) :=
  r.models.map (fun p =>
    (p.1, (dictGet r.metadata p.1).getD [], (dictGet r.metrics p.1).getD []))

/-- Python `min(scores, key=scores.get)` over a nonempty score list: keep
the first entry attaining the minimal value. -/
def argminFirst : String × ℚ → List (String × ℚ) → String × ℚ
  | best, [] => best
  | best, p :: rest => argminFirst (if p.2 < best.2 then p else best) rest

/-- Python `max(scores, key=scores.get)`: first entry attaining the maximal
value. -/
def argmaxFirst : String × ℚ → List (String × ℚ) → String × ℚ
  | best, [] => best
  | best, p :: rest => argmaxFirst (if best.2 < p.2 then p else best) rest

/-- `ModelRegistry.get_best(metric, minimize)`: error when `_metrics` is
empty; build `scores` from the entries carrying the metric; error when no
entry carries it; otherwise return the extremal entry's name together with
its model, metadata and metrics (dict lookups that in Python would raise
`KeyError` on an inconsistent state are surfaced as an error). -/
def RegistryA.get_best (r : RegistryA μ ν) (metric : String) (minimize : Bool) :
    Except String (String × μ × List (String × ν) × List (String × ℚ)) :=
  if r.metrics = [] then .error "No metrics available for model selection"
  else
    match r.metrics.filterMap (fun p => (dictGet p.2 metric).map (fun v => (p.1, v))) with
    | [] => .error ("No models contain metric " ++ metric)
    | s :: rest =>
        let best := if minimize then argminFirst s rest else argmaxFirst s rest
        match dictGet r.models best.1, dictGet r.metadata best.1,
              dictGet r.metrics best.1 with
        | some m, some md, some ms => .ok (best.1, m, md, ms)
        | _, _, _ => .error ("Model not found in registry: " ++ best.1)

/-! ## Persistence-aware registry (`pmo_forecasting/forecasting/registry.py`)

Keyed by `run_key = name ++ "::" ++ run_id`. File writes are out of scope;
the in-memory `_runs` entry records everything the code stores. -/

structure RunEntry (μ : Type) where
  name : String
  run_id : String
  framework : String
  model_file : String
  metrics : List (String × ℚ)
  config : List (String × ℚ)
  model : μ

structure RegistryB (μ : Type) where
  runs : List (String × RunEntry μ)

/-- The empty `ModelRegistry(base_dir)`. -/
def RegistryB.empty : RegistryB μ := ⟨[]⟩

/-- `ModelRegistry.register(name, run_id, model, metrics, config)` of the
persistence-aware variant: branch the save format on the model kind
(`isinstance(model, KerasModel)` embedded as the predicate `kerasLike`),
then overwrite `_runs[run_key]`. The only log line is the final info
message; no warning is emitted on collision. -/
def RegistryB.register (r : RegistryB μ) (kerasLike : μ → Bool) (name run_id : String)
    (model : μ) (metrics config : List (String × ℚ)) : RegistryB μ × List LogEvent :=
  let run_key := name ++ "::" ++ run_id
  let framework := if kerasLike model then "keras" else "pickle"
  let model_file := if kerasLike model then "model.keras" else "model.pkl"
  (⟨dictSet r.runs run_key
      { name := name, run_id := run_id, framework := framework,
        model_file := model_file, metrics := metrics, config := config,
        model := model }⟩,
   [LogEvent.info ("Registered " ++ framework ++ " model: " ++ run_key)])

/-- One row of the persistence-aware `summary()`: the stored fields of each
run (the row dict's metric flattening adds no information at this level). -/
def RegistryB.summary (r : RegistryB μ) : List (RunEntry μ) :=
  r.runs.map (fun p => p.2)

/-! ## MAPE (`pmo_forcasting/forecasting/evaluate.py` and
`pmo_forecasting/forecasting/metrics.py`) -/

/-- `mape` from `evaluate.py`: mask out positions with `y_true == 0`; if no
position survives return `np.nan` (embedded as `none`), else the mean
absolute percentage over the surviving positions. -/
def mape (y_true y_pred : List ℚ) : Option ℚ :=
  let pairs := (y_true.zip y_pred).filter (fun tp => decide (tp.1 ≠ 0))
  if pairs.length = 0 then none
  else some ((pairs.map (fun tp => |(tp.1 - tp.2) / tp.1|)).sum / pairs.length * 100)

/-- IEEE-style value lattice needed by the unmasked `metrics.py` MAPE: a
finite rational, positive infinity (all terms are absolute values, so no
negative infinity arises), or NaN. -/
inductive FVal
  | fin (q : ℚ)
  | inf
  | nan
deriving DecidableEq

/-- IEEE addition on the values arising in the unmasked mean: NaN is
absorbing, infinity absorbs finite values. -/
def FVal.add : FVal → FVal → FVal
  | .nan, _ => .nan
  | _, .nan => .nan
  | .inf, _ => .inf
  | _, .inf => .inf
  | .fin a, .fin b => .fin (a + b)

/-- Division of a sum by the (float) array length: `np.mean` of an empty
array is NaN; infinities and NaNs pass through. -/
def FVal.divLen : FVal → ℕ → FVal
  | _, 0 => .nan
  | .fin q, n => .fin (q / n)
  | .inf, _ => .inf
  | .nan, _ => .nan

/-- Multiplication by the positive constant 100. -/
def FVal.times100 : FVal → FVal
  | .fin q => .fin (100 * q)
  | .inf => .inf
  | .nan => .nan

/-- One term `abs((t - p) / t)` under IEEE semantics: division by a zero
`t` yields NaN when the numerator is also zero and infinity otherwise. -/
def absRatio (t p : ℚ) : FVal :=
  if t = 0 then (if t - p = 0 then FVal.nan else FVal.inf)
  else FVal.fin |(t - p) / t|

/-- `mape` from `metrics.py`: `np.mean(np.abs((y_true - y_pred) / y_true)) * 100`
with no masking of zero denominators. -/
def metricsMape (y_true y_pred : List ℚ) : FVal :=
  (((y_true.zip y_pred).map (fun tp => absRatio tp.1 tp.2)).foldl
      FVal.add (.fin 0)).divLen y_true.length |>.times100

/-! ## Helper lemmas -/

lemma getD_append_left {α : Type} (l₁ l₂ : List α) (i : ℕ) (d : α) (h : i < l₁.length) :
    (l₁ ++ l₂).getD i d = l₁.getD i d := by
  simp [List.getD_eq_getElem?_getD, List.getElem?_append_left h]

lemma getD_append_length {α : Type} (l : List α) (x d : α) :
    (l ++ [x]).getD l.length d = x := by
  simp [List.getD_eq_getElem?_getD, List.getElem?_append_right (Nat.le_refl _)]

lemma getD_set_self {α : Type} (l : List α) (n : ℕ) (a d : α) (h : n < l.length) :
    (l.set n a).getD n d = a := by
  simp [List.getD_eq_getElem?_getD, List.getElem?_set_self', h]

lemma getD_set_ne {α : Type} (l : List α) (n i : ℕ) (a d : α) (h : n ≠ i) :
    (l.set n a).getD i d = l.getD i d := by
  simp [List.getD_eq_getElem?_getD, List.getElem?_set_ne h]

lemma getD_map_lt (l : List ℚ) (f : ℚ → ℚ) (i : ℕ) (d : ℚ) (h : i < l.length) :
    (l.map f).getD i d = f (l.getD i d) := by
  simp [List.getD_eq_getElem, h, List.getElem_map, List.getD_eq_getElem (l := l) d h]

/-! ## C1 / C10 infrastructure: the recursive forecast loop -/

lemma setLast_rollLeft (w : List ℚ) (v : ℚ) (hw : w ≠ []) :
    setLast (rollLeft w) v = w.drop 1 ++ [v] := by
  cases w with
  | nil => exact absurd rfl hw
  | cons a t =>
      simp only [rollLeft, setLast, List.drop_one, List.tail_cons, List.take_succ_cons,
        List.take_zero, List.length_append, List.length_singleton]
      rw [show t.length + 1 - 1 = t.length from rfl, List.take_left]

lemma setLast_rollLeft_length (w : List ℚ) (v : ℚ) (hw : w ≠ []) :
    (setLast (rollLeft w) v).length = w.length := by
  rw [setLast_rollLeft w v hw]
  cases w with
  | nil => exact absurd rfl hw
  | cons a t => simp

lemma forecastLoop_comp (m : List ℚ → ℚ) (a b : ℕ) (s : List ℚ × List ℚ) :
    forecastLoop m (a + b) s = forecastLoop m b (forecastLoop m a s) := by
  induction a generalizing s with
  | zero =>
      obtain ⟨w, p⟩ := s
      rw [Nat.zero_add]
      rfl
  | succ a ih =>
      obtain ⟨w, p⟩ := s
      rw [Nat.succ_add, forecastLoop, forecastLoop]
      exact ih _

lemma forecastLoop_acc (m : List ℚ → ℚ) (n : ℕ) (w p : List ℚ) :
    forecastLoop m n (w, p) =
      ((forecastLoop m n (w, [])).1, p ++ (forecastLoop m n (w, [])).2) := by
  induction n generalizing w p with
  | zero => simp [forecastLoop]
  | succ n ih =>
      rw [forecastLoop, forecastLoop]
      simp only [List.nil_append]
      rw [ih (setLast (rollLeft w) (m w)) (p ++ [m w]),
        ih (setLast (rollLeft w) (m w)) ([m w])]
      simp [List.append_assoc]

lemma forecastLoop_preds_length (m : List ℚ → ℚ) (n : ℕ) (w p : List ℚ) :
    (forecastLoop m n (w, p)).2.length = p.length + n := by
  induction n generalizing w p with
  | zero => rfl
  | succ n ih =>
      rw [forecastLoop, ih]
      simp
      omega

lemma recursive_lstm_forecast_length (m : List ℚ → ℚ) (seed : List ℚ) (n : ℕ) :
    (recursive_lstm_forecast m seed n).length = n := by
  simp [recursive_lstm_forecast, forecastLoop_preds_length]

lemma forecastLoop_succ_state (m : List ℚ → ℚ) (seed : List ℚ) (k : ℕ) :
    forecastLoop m (k + 1) (seed, []) =
      (setLast (rollLeft (windowAt m seed k)) (m (windowAt m seed k)),
       recursive_lstm_forecast m seed k ++ [m (windowAt m seed k)]) := by
  rw [forecastLoop_comp m k 1 (seed, [])]
  rw [show forecastLoop m k (seed, []) =
      (windowAt m seed k, recursive_lstm_forecast m seed k) from rfl]
  rw [forecastLoop, forecastLoop]

lemma windowAt_length (m : List ℚ → ℚ) (seed : List ℚ) (hseed : seed ≠ []) (k : ℕ) :
    (windowAt m seed k).length = seed.length := by
  induction k with
  | zero => rfl
  | succ k ih =>
      have hne : windowAt m seed k ≠ [] := by
        intro h
        rw [h] at ih
        exact hseed (List.length_eq_zero.mp ih.symm)
      rw [windowAt, forecastLoop_succ_state]
      simpa [setLast_rollLeft_length _ _ hne] using ih

lemma recursive_lstm_forecast_succ (m : List ℚ → ℚ) (seed : List ℚ) (k : ℕ) :
    recursive_lstm_forecast m seed (k + 1) =
      recursive_lstm_forecast m seed k ++ [m (windowAt m seed k)] := by
  rw [recursive_lstm_forecast, forecastLoop_succ_state]

lemma windowAt_formula (m : List ℚ → ℚ) (seed : List ℚ) (hseed : seed ≠ []) (k : ℕ) :
    windowAt m seed k = (seed ++ recursive_lstm_forecast m seed k).drop k := by
  induction k with
  | zero => simp [windowAt, forecastLoop, recursive_lstm_forecast]
  | succ k ih =>
      have hne : windowAt m seed k ≠ [] := by
        intro h
        have := windowAt_length m seed hseed k
        rw [h] at this
        exact hseed (List.length_eq_zero.mp this.symm)
      have hlen : k + 1 ≤ (seed ++ recursive_lstm_forecast m seed k).length := by
        have h1 : 1 ≤ seed.length := by
          cases seed with
          | nil => exact absurd rfl hseed
          | cons a t => simp
        simp [recursive_lstm_forecast_length]
        omega
      rw [windowAt, forecastLoop_succ_state]
      show setLast (rollLeft (windowAt m seed k)) (m (windowAt m seed k)) = _
      rw [setLast_rollLeft _ _ hne, ih, List.drop_drop,
        recursive_lstm_forecast_succ, ← List.append_assoc,
        List.drop_append_of_le_length hlen]
      rw [ih]

lemma recursive_lstm_forecast_take (m : List ℚ → ℚ) (seed : List ℚ) (k n : ℕ)
    (h : k ≤ n) :
    (recursive_lstm_forecast m seed n).take k = recursive_lstm_forecast m seed k := by
  have hcomp := forecastLoop_comp m k (n - k) (seed, [])
  rw [Nat.add_sub_cancel' h] at hcomp
  have hacc := forecastLoop_acc m (n - k) (windowAt m seed k)
    (recursive_lstm_forecast m seed k)
  rw [show forecastLoop m k (seed, []) =
      (windowAt m seed k, recursive_lstm_forecast m seed k) from rfl] at hcomp
  rw [recursive_lstm_forecast, hcomp, hacc]
  have : (recursive_lstm_forecast m seed k).length = k :=
    recursive_lstm_forecast_length m seed k
  exact List.take_left' this

/-! ## C10: the seed window is never mutated -/

lemma heapLoop_preserve (m : List ℚ → ℚ) (n : ℕ) :
    ∀ (heap : List (List ℚ)) (wid : ℕ) (preds : List ℚ) (i : ℕ), i < heap.length →
      ((heapLoop m n (heap, wid, preds)).1).getD i [] = heap.getD i [] := by
  induction n with
  | zero => intro heap wid preds i _; rfl
  | succ n ih =>
      intro heap wid preds i hi
      rw [heapLoop]
      have hlen : i < ((heap ++ [rollLeft (heap.getD wid [])]).set heap.length
          (setLast ((heap ++ [rollLeft (heap.getD wid [])]).getD heap.length [])
            (m (heap.getD wid [])))).length := by
        simp
        omega
      rw [ih _ _ _ _ hlen]
      rw [getD_set_ne _ _ _ _ _ (Nat.ne_of_gt hi)]
      exact getD_append_left _ _ _ _ hi

lemma heapLoop_preds (m : List ℚ → ℚ) (n : ℕ) :
    ∀ (heap : List (List ℚ)) (wid : ℕ) (preds : List ℚ),
      (heapLoop m n (heap, wid, preds)).2.2 =
        (forecastLoop m n (heap.getD wid [], preds)).2 := by
  induction n with
  | zero => intro heap wid preds; rfl
  | succ n ih =>
      intro heap wid preds
      rw [heapLoop, forecastLoop, ih]
      have hcell : ((heap ++ [rollLeft (heap.getD wid [])]).set heap.length
          (setLast ((heap ++ [rollLeft (heap.getD wid [])]).getD heap.length [])
            (m (heap.getD wid [])))).getD heap.length [] =
          setLast (rollLeft (heap.getD wid [])) (m (heap.getD wid [])) := by
        rw [getD_append_length]
        exact getD_set_self _ _ _ _ (by simp)
      rw [hcell]

/-- C10: `recursive_lstm_forecast` leaves its `seed_window` argument
unchanged: the loop mutates only the buffer produced by
`seed_window.copy()` (and the fresh buffers `np.roll` allocates), so after
the call the caller's buffer holds its original contents and the
predictions agree with an independent functional run on the same seed. -/
theorem recursive_forecast_frame (m : List ℚ → ℚ) (heap : List (List ℚ))
    (seedId n : ℕ) (h : seedId < heap.length) :
    (recursive_lstm_forecast_heap m heap seedId n).1.getD seedId [] = heap.getD seedId []
    ∧ (recursive_lstm_forecast_heap m heap seedId n).2 =
        recursive_lstm_forecast m (heap.getD seedId []) n := by
  constructor
  · rw [recursive_lstm_forecast_heap]
    have h1 : seedId < (heap ++ [heap.getD seedId []]).length := by simp; omega
    rw [heapLoop_preserve m n _ _ _ _ h1]
    exact getD_append_left _ _ _ _ h
  · rw [recursive_lstm_forecast_heap]
    show (heapLoop m n (heap ++ [heap.getD seedId []], heap.length, [])).2.2 = _
    rw [heapLoop_preds, getD_append_length]
    rfl

/-- Witness for C10 at a concrete heap: one seed buffer `[1, 2]`, the
constant-sum model, horizon 2. -/
theorem recursive_forecast_frame_witness :
    0 < ([[(1 : ℚ), 2]] : List (List ℚ)).length ∧
    ((recursive_lstm_forecast_heap (fun w => w.sum) [[(1 : ℚ), 2]] 0 2).1.getD 0 [] =
        ([[(1 : ℚ), 2]] : List (List ℚ)).getD 0 []
      ∧ (recursive_lstm_forecast_heap (fun w => w.sum) [[(1 : ℚ), 2]] 0 2).2 =
        recursive_lstm_forecast (fun w => w.sum) (([[(1 : ℚ), 2]] : List (List ℚ)).getD 0 []) 2) :=
  ⟨Nat.one_pos, recursive_forecast_frame (fun w => w.sum) [[(1 : ℚ), 2]] 0 2 Nat.one_pos⟩

/-! ## C1: shape of the windows fed to the model -/

/-- A stub model returning the constant 5 regardless of its window. -/
def constModel5 : List ℚ → ℚ := fun _ => 5

/-- C1 counterexample: with seed window `[3]` (width 1) and the constant
model, the window fed at iteration `k = 2` of a horizon-3 run is `[5]`,
not the claimed `seed.drop 2 ++ first 2 predictions = [5, 5]` — dropping
`k` entries and appending `k` predictions misdescribes the window once
`k` exceeds the window width. -/
theorem recursive_forecast_claim_false :
    windowAt constModel5 [3] 2 ≠
      ([3] : List ℚ).drop 2 ++ (recursive_lstm_forecast constModel5 [3] 3).take 2 := by
  decide

/-- C1 (amended): for a deterministic model, a nonempty seed window and any
horizon `n`, `recursive_lstm_forecast` returns exactly `n` predictions; the
window fed to the model at iteration `k` is the last `W` entries of
`seed ++ predictions so far`, i.e. `(seed ++ preds.take k).drop k`; in
particular, for `k ≤ W` it is precisely the seed with its first `k` entries
dropped and the `k` prior predictions appended. -/
theorem recursive_forecast_spec (m : List ℚ → ℚ) (seed : List ℚ) (n : ℕ)
    (hseed : seed ≠ []) :
    (recursive_lstm_forecast m seed n).length = n
    ∧ (∀ k, k < n → windowAt m seed k =
        (seed ++ (recursive_lstm_forecast m seed n).take k).drop k)
    ∧ (∀ k, k < n → k ≤ seed.length → windowAt m seed k =
        seed.drop k ++ (recursive_lstm_forecast m seed n).take k) := by
  refine ⟨recursive_lstm_forecast_length m seed n, ?_, ?_⟩
  · intro k hk
    rw [recursive_lstm_forecast_take m seed k n (Nat.le_of_lt hk)]
    exact windowAt_formula m seed hseed k
  · intro k hk hks
    rw [recursive_lstm_forecast_take m seed k n (Nat.le_of_lt hk),
      windowAt_formula m seed hseed k,
      List.drop_append_of_le_length hks]

/-- Witness for C1 (amended) at seed `[3, 4]`, constant model, horizon 3. -/
theorem recursive_forecast_spec_witness :
    ([3, 4] : List ℚ) ≠ [] ∧
    ((recursive_lstm_forecast constModel5 [3, 4] 3).length = 3
      ∧ (∀ k, k < 3 → windowAt constModel5 [3, 4] k =
          (([3, 4] : List ℚ) ++ (recursive_lstm_forecast constModel5 [3, 4] 3).take k).drop k)
      ∧ (∀ k, k < 3 → k ≤ ([3, 4] : List ℚ).length → windowAt constModel5 [3, 4] k =
          ([3, 4] : List ℚ).drop k ++ (recursive_lstm_forecast constModel5 [3, 4] 3).take k)) :=
  ⟨by decide, recursive_forecast_spec constModel5 [3, 4] 3 (by decide)⟩

/-! ## C3: the sliding-window invariant -/

lemma create_sequences_X_getD (data : List ℚ) (w i : ℕ) (h : i < data.length - w) :
    (create_sequences data w).1.getD i [] = (data.drop i).take w := by
  have hl : i < ((List.range' w (data.length - w)).map
      (fun j => (data.drop (j - w)).take w)).length := by simpa using h
  rw [create_sequences, List.getD_eq_getElem _ _ hl, List.getElem_map,
    List.getElem_range']
  simp

lemma create_sequences_y_getD (data : List ℚ) (w i : ℕ) (h : i < data.length - w) :
    (create_sequences data w).2.getD i 0 = data.getD (i + w) 0 := by
  have hl : i < ((List.range' w (data.length - w)).map
      (fun j => data.getD j 0)).length := by simpa using h
  rw [create_sequences, List.getD_eq_getElem _ _ hl, List.getElem_map,
    List.getElem_range']
  simp [Nat.add_comm]

lemma create_sequences_X_length (data : List ℚ) (w : ℕ) :
    (create_sequences data w).1.length = data.length - w := by
  simp [create_sequences]

lemma create_sequences_y_length (data : List ℚ) (w : ℕ) :
    (create_sequences data w).2.length = data.length - w := by
  simp [create_sequences]

lemma make_eq_create (data : List ℚ) (w : ℕ) :
    make_lstm_sequences data w = create_sequences data w := rfl

/-- C3: for window size `W ≥ 1` and input length `L ≥ W`, `create_sequences`
(and the identical `make_lstm_sequences`) yields exactly `L - W` windows and
`L - W` targets; window `i` is the slice `[i, i+W)` of the input, has length
`W`, and its target is the input value at index `i + W`. -/
theorem create_sequences_spec (data : List ℚ) (w : ℕ)
    (hw : 1 ≤ w) (hL : w ≤ data.length) :
    (create_sequences data w).1.length = data.length - w
    ∧ (create_sequences data w).2.length = data.length - w
    ∧ (∀ i, i < data.length - w →
        (create_sequences data w).1.getD i [] = (data.drop i).take w
        ∧ ((create_sequences data w).1.getD i []).length = w
        ∧ (create_sequences data w).2.getD i 0 = data.getD (i + w) 0)
    ∧ make_lstm_sequences data w = create_sequences data w := by
  refine ⟨create_sequences_X_length data w, create_sequences_y_length data w,
    ?_, make_eq_create data w⟩
  intro i hi
  refine ⟨create_sequences_X_getD data w i hi, ?_, create_sequences_y_getD data w i hi⟩
  rw [create_sequences_X_getD data w i hi]
  simp
  omega

/-- Witness for C3 on the length-5 input `[1, 2, 3, 4, 5]` with `W = 2`. -/
theorem create_sequences_spec_witness :
    1 ≤ 2 ∧ 2 ≤ ([1, 2, 3, 4, 5] : List ℚ).length ∧
    ((create_sequences [1, 2, 3, 4, 5] 2).1.length = ([1, 2, 3, 4, 5] : List ℚ).length - 2
      ∧ (create_sequences [1, 2, 3, 4, 5] 2).2.length = ([1, 2, 3, 4, 5] : List ℚ).length - 2
      ∧ (∀ i, i < ([1, 2, 3, 4, 5] : List ℚ).length - 2 →
          (create_sequences [1, 2, 3, 4, 5] 2).1.getD i [] =
            (([1, 2, 3, 4, 5] : List ℚ).drop i).take 2
          ∧ ((create_sequences [1, 2, 3, 4, 5] 2).1.getD i []).length = 2
          ∧ (create_sequences [1, 2, 3, 4, 5] 2).2.getD i 0 =
            ([1, 2, 3, 4, 5] : List ℚ).getD (i + 2) 0)
      ∧ make_lstm_sequences [1, 2, 3, 4, 5] 2 = create_sequences [1, 2, 3, 4, 5] 2) :=
  ⟨by decide, by decide, create_sequences_spec [1, 2, 3, 4, 5] 2 (by decide) (by decide)⟩

/-! ## C6: confidence-interval symmetry -/

/-- C6: with the default `z = 1.96`, `compute_confidence_intervals` returns
bounds with `upper - forecast = forecast - lower = 1.96 * std(residuals)` at
every forecast position; the right-hand side does not depend on the
position, so the band is symmetric and of constant width across the
horizon. -/
theorem compute_confidence_intervals_spec (forecast residuals : List ℝ)
    (i : ℕ) (hi : i < forecast.length) :
    (compute_confidence_intervals forecast residuals 1.96).2.getD i 0
        - forecast.getD i 0 = 1.96 * npStd residuals
    ∧ forecast.getD i 0
        - (compute_confidence_intervals forecast residuals 1.96).1.getD i 0
        = 1.96 * npStd residuals := by
  have hget : ∀ (f : ℝ → ℝ), (forecast.map f).getD i 0 = f (forecast.getD i 0) := by
    intro f
    have hl : i < (forecast.map f).length := by simpa using hi
    rw [List.getD_eq_getElem _ _ hl, List.getElem_map,
      List.getD_eq_getElem _ _ hi]
  constructor
  · rw [compute_confidence_intervals]
    show (forecast.map (fun f => f + 1.96 * npStd residuals)).getD i 0 - _ = _
    rw [hget]
    ring
  · rw [compute_confidence_intervals]
    show _ - (forecast.map (fun f => f - 1.96 * npStd residuals)).getD i 0 = _
    rw [hget]
    ring

/-- Witness for C6 at forecast `[5]`, residuals `[0, 2]`, position 0. -/
theorem compute_confidence_intervals_spec_witness :
    0 < ([5] : List ℝ).length ∧
    ((compute_confidence_intervals [5] [0, 2] 1.96).2.getD 0 0
        - ([5] : List ℝ).getD 0 0 = 1.96 * npStd [0, 2]
      ∧ ([5] : List ℝ).getD 0 0
        - (compute_confidence_intervals [5] [0, 2] 1.96).1.getD 0 0
        = 1.96 * npStd [0, 2]) :=
  ⟨Nat.one_pos, compute_confidence_intervals_spec [5] [0, 2] 0 Nat.one_pos⟩

/-! ## C2: per-model failure isolation in the pipeline -/

lemma dictGet_dictSet_self (l : List (String × α)) (k : String) (v : α) :
    dictGet (dictSet l k v) k = some v := by
  induction l with
  | nil => simp [dictSet, dictGet]
  | cons p rest ih =>
      by_cases h : p.1 = k
      · simp [dictSet, dictGet, h]
      · simp [dictSet, dictGet, h, ih]

lemma dictGet_dictSet_ne (l : List (String × α)) (k k' : String) (v : α)
    (h : k ≠ k') :
    dictGet (dictSet l k v) k' = dictGet l k' := by
  induction l with
  | nil => simp [dictSet, dictGet, h]
  | cons p rest ih =>
      by_cases hp : p.1 = k
      · simp [dictSet, dictGet, hp, h]
      · simp only [dictSet, hp, if_false, dictGet]
        by_cases hp' : p.1 = k'
        · simp [hp']
        · simp [hp', ih]

lemma pipelineRun_foldl_arima (runA runL : Except String M) (models : List String) :
    ∀ acc : List (String × (M ⊕ String)),
      dictGet (models.foldl (fun results name =>
        if name = "arima" then dictSet results "arima" (toRes runA)
        else if name = "lstm" then dictSet results "lstm" (toRes runL)
        else results) acc) "arima" =
      if "arima" ∈ models then some (toRes runA) else dictGet acc "arima" := by
  induction models with
  | nil => intro acc; simp
  | cons name rest ih =>
      intro acc
      simp only [List.foldl_cons]
      by_cases ha : name = "arima"
      · subst ha
        rw [if_pos rfl, ih]
        by_cases hm : "arima" ∈ rest
        · rw [if_pos hm, if_pos (List.mem_cons_of_mem _ hm)]
        · rw [if_neg hm, dictGet_dictSet_self, if_pos (List.mem_cons_self _ _)]
      · by_cases hl : name = "lstm"
        · subst hl
          rw [if_neg (by decide : ¬("lstm" = "arima")), if_pos rfl, ih]
          by_cases hm : "arima" ∈ rest
          · rw [if_pos hm, if_pos (List.mem_cons_of_mem _ hm)]
          · rw [if_neg hm,
              dictGet_dictSet_ne acc "lstm" "arima" (toRes runL) (by decide),
              if_neg (fun hc => by
                rcases List.mem_cons.mp hc with h1 | h1
                · exact absurd h1 (by decide)
                · exact hm h1)]
        · rw [if_neg ha, if_neg hl, ih]
          by_cases hm : "arima" ∈ rest
          · rw [if_pos hm, if_pos (List.mem_cons_of_mem _ hm)]
          · rw [if_neg hm, if_neg (fun hc => by
              rcases List.mem_cons.mp hc with h1 | h1
              · exact ha h1.symm
              · exact hm h1)]

lemma pipelineRun_foldl_lstm (runA runL : Except String M) (models : List String) :
    ∀ acc : List (String × (M ⊕ String)),
      dictGet (models.foldl (fun results name =>
        if name = "arima" then dictSet results "arima" (toRes runA)
        else if name = "lstm" then dictSet results "lstm" (toRes runL)
        else results) acc) "lstm" =
      if "lstm" ∈ models then some (toRes runL) else dictGet acc "lstm" := by
  induction models with
  | nil => intro acc; simp
  | cons name rest ih =>
      intro acc
      simp only [List.foldl_cons]
      by_cases ha : name = "arima"
      · subst ha
        rw [if_pos rfl, ih]
        by_cases hm : "lstm" ∈ rest
        · rw [if_pos hm, if_pos (List.mem_cons_of_mem _ hm)]
        · rw [if_neg hm,
            dictGet_dictSet_ne acc "arima" "lstm" (toRes runA) (by decide),
            if_neg (fun hc => by
              rcases List.mem_cons.mp hc with h1 | h1
              · exact absurd h1 (by decide)
              · exact hm h1)]
      · by_cases hl : name = "lstm"
        · subst hl
          rw [if_neg (by decide : ¬("lstm" = "arima")), if_pos rfl, ih]
          by_cases hm : "lstm" ∈ rest
          · rw [if_pos hm, if_pos (List.mem_cons_of_mem _ hm)]
          · rw [if_neg hm, dictGet_dictSet_self, if_pos (List.mem_cons_self _ _)]
        · rw [if_neg ha, if_neg hl, ih]
          by_cases hm : "lstm" ∈ rest
          · rw [if_pos hm, if_pos (List.mem_cons_of_mem _ hm)]
          · rw [if_neg hm, if_neg (fun hc => by
              rcases List.mem_cons.mp hc with h1 | h1
              · exact hl h1.symm
              · exact hm h1)]

lemma pipelineRun_foldl_other (runA runL : Except String M) (models : List String)
    (other : String) (ha : other ≠ "arima") (hl : other ≠ "lstm") :
    ∀ acc : List (String × (M ⊕ String)),
      dictGet (models.foldl (fun results name =>
        if name = "arima" then dictSet results "arima" (toRes runA)
        else if name = "lstm" then dictSet results "lstm" (toRes runL)
        else results) acc) other = dictGet acc other := by
  induction models with
  | nil => intro acc; simp
  | cons name rest ih =>
      intro acc
      simp only [List.foldl_cons]
      by_cases hna : name = "arima"
      · subst hna
        rw [if_pos rfl, ih,
          dictGet_dictSet_ne acc "arima" other (toRes runA) (fun h => ha h.symm)]
      · by_cases hnl : name = "lstm"
        · subst hnl
          rw [if_neg (by decide : ¬("lstm" = "arima")), if_pos rfl, ih,
            dictGet_dictSet_ne acc "lstm" other (toRes runL) (fun h => hl h.symm)]
        · rw [if_neg hna, if_neg hnl]
          exact ih acc

/-- C2: for any ordered list of requested model names, `run` records for
each requested known model exactly the outcome of its own runner — metrics
on success, `\x7b"error": message\x7d` on exception — independently of what any
other requested model did (so an earlier failure never aborts a later
model), and any unknown model name is absent from the returned mapping. -/
theorem pipelineRun_spec (runA runL : Except String M) (models : List String) :
    dictGet (pipelineRun runA runL models) "arima" =
      (if "arima" ∈ models then some (toRes runA) else none)
    ∧ dictGet (pipelineRun runA runL models) "lstm" =
      (if "lstm" ∈ models then some (toRes runL) else none)
    ∧ ∀ other : String, other ≠ "arima" → other ≠ "lstm" →
        dictGet (pipelineRun runA runL models) other = none := by
  refine ⟨?_, ?_, ?_⟩
  · rw [pipelineRun, pipelineRun_foldl_arima]
    rfl
  · rw [pipelineRun, pipelineRun_foldl_lstm]
    rfl
  · intro other ha hl
    rw [pipelineRun, pipelineRun_foldl_other runA runL models other ha hl]
    rfl

/-- Witness for C2: request `["lstm", "arima", "bogus"]` with the ARIMA
runner failing with "boom" and the LSTM runner succeeding with metrics 7:
the mapping records the error for arima, the metrics for lstm, and no entry
for bogus. -/
theorem pipelineRun_spec_witness :
    dictGet (pipelineRun (M := ℚ) (.error "boom") (.ok 7) ["lstm", "arima", "bogus"])
        "arima" = some (Sum.inr "boom")
    ∧ dictGet (pipelineRun (M := ℚ) (.error "boom") (.ok 7) ["lstm", "arima", "bogus"])
        "lstm" = some (Sum.inl 7)
    ∧ dictGet (pipelineRun (M := ℚ) (.error "boom") (.ok 7) ["lstm", "arima", "bogus"])
        "bogus" = none := by
  obtain ⟨h1, h2, h3⟩ := pipelineRun_spec (M := ℚ) (.error "boom") (.ok 7)
    ["lstm", "arima", "bogus"]
  refine ⟨?_, ?_, h3 "bogus" (by decide) (by decide)⟩
  · rw [h1]
    decide
  · rw [h2]
    decide

/-! ## C4: where the train/test overlap check happens -/

/-- C4 counterexample: with rows at dates 0, 1, 2, a train range `[0, 2]`
and a test range `[1, 2]` overlap (train end 2 ≥ test start 1), yet
`prepare_data_from_df` succeeds — the preparation step performs no overlap
check. -/
theorem prepare_data_claim_false :
    (Cfg.mk 0 2 1 2 1).test_start ≤ (Cfg.mk 0 2 1 2 1).train_end
    ∧ (prepare_data_from_df [(0, 1), (1, 2), (2, 3)] (Cfg.mk 0 2 1 2 1)).isOk = true := by
  constructor
  · decide
  · decide

/-- C4 (amended): `prepare_data_from_df` performs no overlap check — it
succeeds for every configuration whose train and test slices are both
nonempty, overlapping date ranges or not (its only failures are sklearn's
empty-slice "0 sample(s)" errors); the overlap failure is raised by the
pipeline's ARIMA runner `_run_arima` — before any build or train work, for
every possible build/train/forecast tail — exactly when the train index
maximum is ≥ the test index minimum, and the runner proceeds to its tail
otherwise. (The LSTM runner has no such check.) -/
theorem prepare_overlap_spec (df : List (ℕ × ℚ)) (cfg : Cfg)
    (tail : List (ℕ × ℚ) → List (ℕ × ℚ) → Except String M)
    (y_train y_test : List (ℕ × ℚ))
    (hne : locSlice (sortByDate df) cfg.train_start cfg.train_end ≠ [])
    (hte : locSlice (sortByDate df) cfg.test_start cfg.test_end ≠ []) :
    (prepare_data_from_df df cfg).isOk = true
    ∧ (arimaOverlap y_train y_test = true →
        run_arima tail y_train y_test =
          .error "ARIMA train/test split overlaps in time")
    ∧ (arimaOverlap y_train y_test = false →
        run_arima tail y_train y_test = tail y_train y_test) := by
  refine ⟨?_, ?_, ?_⟩
  · rw [prepare_data_from_df]
    cases h : (locSlice (sortByDate df) cfg.train_start cfg.train_end).map
        (fun r => r.2) with
    | nil => exact absurd (List.map_eq_nil_iff.mp h) hne
    | cons v vs =>
        dsimp only
        rw [if_neg (fun hc => hte (List.map_eq_nil_iff.mp hc))]
        rfl
  · intro h
    rw [run_arima, if_pos h]
  · intro h
    rw [run_arima, if_neg (by rw [h]; exact Bool.false_ne_true)]

/-- Witness for C4 (amended) on three rows with an overlapping config and a
nonoverlapping ARIMA split. -/
theorem prepare_overlap_spec_witness :
    locSlice (sortByDate [(0, 1), (1, 2), (2, 3)]) 0 2 ≠ []
    ∧ locSlice (sortByDate [(0, 1), (1, 2), (2, 3)]) 1 2 ≠ []
    ∧ ((prepare_data_from_df [(0, 1), (1, 2), (2, 3)] (Cfg.mk 0 2 1 2 1)).isOk = true
      ∧ (arimaOverlap [(0, 1)] [(1, 2)] = true →
          run_arima (M := ℚ) (fun _ _ => .ok 0) [(0, 1)] [(1, 2)] =
            .error "ARIMA train/test split overlaps in time")
      ∧ (arimaOverlap [(0, 1)] [(1, 2)] = false →
          run_arima (M := ℚ) (fun _ _ => .ok 0) [(0, 1)] [(1, 2)] = Except.ok 0)) :=
  ⟨by decide, by decide, prepare_overlap_spec [(0, 1), (1, 2), (2, 3)] (Cfg.mk 0 2 1 2 1)
    (fun _ _ => .ok 0) [(0, 1)] [(1, 2)] (by decide) (by decide)⟩

/-! ## C5: which series the test windows are built over -/

lemma getD_append_right_add {α : Type} (l₁ l₂ : List α) (i : ℕ) (d : α) :
    (l₁ ++ l₂).getD (l₁.length + i) d = l₂.getD i d := by
  simp [List.getD_eq_getElem?_getD,
    List.getElem?_append_right (Nat.le_add_right l₁.length i)]

lemma getD_append_right_of_length {α : Type} (l₁ l₂ : List α) (w i : ℕ)
    (hl : l₁.length = w) (d : α) :
    (l₁ ++ l₂).getD (w + i) d = l₂.getD i d := by
  subst hl
  exact getD_append_right_add l₁ l₂ i d

lemma concat_windows_spec (train_scaled test_scaled : List ℚ) (w : ℕ)
    (hw : w ≤ train_scaled.length) :
    (make_lstm_sequences (lastN train_scaled w ++ test_scaled) w).2.length =
      test_scaled.length
    ∧ (make_lstm_sequences (lastN train_scaled w ++ test_scaled) w).1.length =
      test_scaled.length
    ∧ ∀ i, i < test_scaled.length →
        (make_lstm_sequences (lastN train_scaled w ++ test_scaled) w).2.getD i 0 =
          test_scaled.getD i 0
        ∧ (make_lstm_sequences (lastN train_scaled w ++ test_scaled) w).1.getD i [] =
          ((lastN train_scaled w ++ test_scaled).drop i).take w := by
  have hlast : (lastN train_scaled w).length = w := by
    simp [lastN]
    omega
  have hcount : (lastN train_scaled w ++ test_scaled).length - w =
      test_scaled.length := by
    simp [hlast]
  refine ⟨?_, ?_, ?_⟩
  · rw [make_eq_create, create_sequences_y_length, hcount]
  · rw [make_eq_create, create_sequences_X_length, hcount]
  · intro i hi
    have hi' : i < (lastN train_scaled w ++ test_scaled).length - w := by
      rw [hcount]; exact hi
    refine ⟨?_, ?_⟩
    · rw [make_eq_create, create_sequences_y_getD _ _ _ hi', Nat.add_comm i w,
        getD_append_right_of_length _ _ _ _ hlast]
    · rw [make_eq_create, create_sequences_X_getD _ _ _ hi']

/-- C5 counterexample: on four rows with train `[0, 1]`, test `[2, 3]` and
window size 1, `get_model_ready_data` produces 1 test window while the test
set has 2 points — its test windows are built over the scaled test values
alone, so the first `W` test-era targets are lost. -/
theorem get_model_ready_data_claim_false :
    ¬ ((get_model_ready_data [(0, 1), (1, 2), (2, 3), (3, 4)] (Cfg.mk 0 1 2 3 1)).toOption.map
          (fun g => g.lstm_test.2.length) =
        (get_model_ready_data [(0, 1), (1, 2), (2, 3), (3, 4)] (Cfg.mk 0 1 2 3 1)).toOption.map
          (fun g => g.arima_test.length)) := by
  decide

/-- C5 (amended): in the `pmo_forecasting` variant `prepare_forecasting_data`,
the test windows are built over `train_tail(W) ++ test_scaled`, so the number
of test windows equals the test-set length, every test target `i` is the
scaled `i`-th test value (no test-era target is lost), window `i` is the
slice `[i, i+W)` of the concatenation, and the train windows come from the
scaled train values alone (`train_len − W` of them); in the `pmo_forcasting`
variant `get_model_ready_data`, by contrast, the test windows are built over
the scaled test values alone, so only `test_len − W` windows exist. -/
theorem prepare_forecasting_data_spec (df : List (ℕ × ℚ)) (cfg : Cfg) (b : FBundle)
    (hok : prepare_forecasting_data df cfg = .ok b)
    (hw : cfg.window_size ≤ b.y_train_raw.length) :
    b.y_test_lstm.length = b.y_test_raw.length
    ∧ b.X_test_lstm.length = b.y_test_raw.length
    ∧ (∀ i, i < b.y_test_raw.length →
        b.y_test_lstm.getD i 0 =
          b.scaler.transform ((b.y_test_raw.map (fun r => r.2)).getD i 0)
        ∧ b.X_test_lstm.getD i [] =
          (((lastN ((b.y_train_raw.map (fun r => r.2)).map b.scaler.transform)
              cfg.window_size ++
            (b.y_test_raw.map (fun r => r.2)).map b.scaler.transform).drop i).take
            cfg.window_size))
    ∧ b.X_train_lstm =
        (create_sequences ((b.y_train_raw.map (fun r => r.2)).map b.scaler.transform)
          cfg.window_size).1
    ∧ b.X_train_lstm.length = b.y_train_raw.length - cfg.window_size
    ∧ (∀ g : GBundle, get_model_ready_data df cfg = .ok g →
        g.lstm_test.2.length = g.arima_test.length - cfg.window_size) := by
  rw [prepare_forecasting_data] at hok
  cases h : (locSlice (sortByDate df) cfg.train_start cfg.train_end).map
      (fun r => r.2) with
  | nil => rw [h] at hok; exact absurd hok (by simp)
  | cons v vs =>
      rw [h] at hok
      dsimp only at hok
      by_cases hts : (locSlice (sortByDate df) cfg.test_start cfg.test_end).map
          (fun r => r.2) = []
      · rw [if_pos hts] at hok
        exact absurd hok (by simp)
      · rw [if_neg hts] at hok
        obtain rfl : _ = b := Except.ok.inj hok
        dsimp only at hw ⊢
        rw [← h]
        obtain ⟨h1, h2, h3⟩ := concat_windows_spec
          (((locSlice (sortByDate df) cfg.train_start cfg.train_end).map
              (fun r => r.2)).map (fitScaler v vs).transform)
          (((locSlice (sortByDate df) cfg.test_start cfg.test_end).map
              (fun r => r.2)).map (fitScaler v vs).transform)
          cfg.window_size (by simpa using hw)
        refine ⟨?_, ?_, ?_, rfl, ?_, ?_⟩
        · rw [h1]
          simp
        · rw [h2]
          simp
        · intro i hi
          have hix : i < (((locSlice (sortByDate df) cfg.test_start cfg.test_end).map
              (fun r => r.2)).map (fitScaler v vs).transform).length := by
            simpa using hi
          obtain ⟨ht, hx⟩ := h3 i hix
          refine ⟨?_, hx⟩
          rw [ht, getD_map_lt _ _ _ _ (by simpa using hi)]
        · rw [make_eq_create, create_sequences_X_length]
          simp
        · intro g hg
          rw [get_model_ready_data, prepare_data_from_df, h] at hg
          dsimp only at hg
          rw [if_neg hts] at hg
          simp only [Except.map] at hg
          obtain rfl : _ = g := Except.ok.inj hg
          dsimp only
          rw [create_sequences_y_length]
          simp

/-- The bundle `prepare_forecasting_data` produces on three rows with train
range `[0, 1]`, test range `[2, 2]` and window size 1. -/
def sampleFBundle : FBundle :=
  { y_train_raw := [(0, 0), (1, 1)], y_test_raw := [(2, 2)],
    X_train_lstm := [[0]], y_train_lstm := [1],
    X_test_lstm := [[1]], y_test_lstm := [2],
    scaler := ⟨0, 1⟩, test_index := [2] }

/-- Witness for C5 (amended) on the concrete three-row input. -/
theorem prepare_forecasting_data_spec_witness :
    prepare_forecasting_data [(0, 0), (1, 1), (2, 2)] (Cfg.mk 0 1 2 2 1) =
      .ok sampleFBundle
    ∧ (Cfg.mk 0 1 2 2 1).window_size ≤ sampleFBundle.y_train_raw.length
    ∧ (sampleFBundle.y_test_lstm.length = sampleFBundle.y_test_raw.length
      ∧ sampleFBundle.X_test_lstm.length = sampleFBundle.y_test_raw.length
      ∧ (∀ i, i < sampleFBundle.y_test_raw.length →
          sampleFBundle.y_test_lstm.getD i 0 =
            sampleFBundle.scaler.transform
              ((sampleFBundle.y_test_raw.map (fun r => r.2)).getD i 0)
          ∧ sampleFBundle.X_test_lstm.getD i [] =
            (((lastN ((sampleFBundle.y_train_raw.map (fun r => r.2)).map
                sampleFBundle.scaler.transform) (Cfg.mk 0 1 2 2 1).window_size ++
              (sampleFBundle.y_test_raw.map (fun r => r.2)).map
                sampleFBundle.scaler.transform).drop i).take
              (Cfg.mk 0 1 2 2 1).window_size))
      ∧ sampleFBundle.X_train_lstm =
          (create_sequences ((sampleFBundle.y_train_raw.map (fun r => r.2)).map
            sampleFBundle.scaler.transform) (Cfg.mk 0 1 2 2 1).window_size).1
      ∧ sampleFBundle.X_train_lstm.length =
          sampleFBundle.y_train_raw.length - (Cfg.mk 0 1 2 2 1).window_size
      ∧ (∀ g : GBundle,
          get_model_ready_data [(0, 0), (1, 1), (2, 2)] (Cfg.mk 0 1 2 2 1) =
            .ok g →
          g.lstm_test.2.length = g.arima_test.length - (Cfg.mk 0 1 2 2 1).window_size)) :=
  ⟨by norm_num [prepare_forecasting_data, sortByDate, insertByDate, locSlice,
      fitScaler, Scaler.transform, Scaler.range, lastN, make_lstm_sequences,
      List.range', sampleFBundle],
    by decide,
    prepare_forecasting_data_spec [(0, 0), (1, 1), (2, 2)] (Cfg.mk 0 1 2 2 1)
      sampleFBundle
      (by norm_num [prepare_forecasting_data, sortByDate, insertByDate, locSlice,
        fitScaler, Scaler.transform, Scaler.range, lastN, make_lstm_sequences,
        List.range', sampleFBundle])
      (by decide)⟩

/-! ## C9: MAPE masking of zero denominators -/

/-- C9 counterexample: the `metrics.py` variant of `mape` performs no
masking — on `y_true = [0, 0, 0]`, `y_pred = [1, 1, 1]` it divides by zero
at every position and returns `+inf`, not NaN. -/
theorem metrics_mape_claim_false :
    metricsMape [0, 0, 0] [1, 1, 1] = FVal.inf ∧ FVal.inf ≠ FVal.nan := by
  constructor
  · norm_num [metricsMape, absRatio, FVal.add, FVal.divLen, FVal.times100]
  · decide

lemma zip_filter_agree : ∀ (yt yp₁ yp₂ : List ℚ),
    yp₁.length = yt.length → yp₂.length = yt.length →
    (∀ i, i < yt.length → yt.getD i 0 ≠ 0 → yp₁.getD i 0 = yp₂.getD i 0) →
    (yt.zip yp₁).filter (fun tp => decide (tp.1 ≠ 0)) =
      (yt.zip yp₂).filter (fun tp => decide (tp.1 ≠ 0)) := by
  intro yt
  induction yt with
  | nil => intro yp₁ yp₂ _ _ _; simp
  | cons t ts ih =>
      intro yp₁ yp₂ h1 h2 hag
      cases yp₁ with
      | nil => simp at h1
      | cons p₁ ps₁ =>
          cases yp₂ with
          | nil => simp at h2
          | cons p₂ ps₂ =>
              have htail : (ts.zip ps₁).filter (fun tp => decide (tp.1 ≠ 0)) =
                  (ts.zip ps₂).filter (fun tp => decide (tp.1 ≠ 0)) := by
                refine ih ps₁ ps₂ (by simpa using h1) (by simpa using h2) ?_
                intro i hi hne
                have := hag (i + 1) (by simpa using Nat.succ_lt_succ hi)
                simpa using this (by simpa using hne)
              simp only [List.zip_cons_cons, List.filter_cons]
              by_cases h0 : t = 0
              · rw [if_neg (by simp [h0]), if_neg (by simp [h0])]
                exact htail
              · have hhead : p₁ = p₂ := by
                  have := hag 0 (by simp) (by simpa using h0)
                  simpa using this
                rw [if_pos (by simp [h0]), if_pos (by simp [h0]), hhead, htail]


/-- C9 (amended): the `evaluate.py` variant of `mape` is computed only over
positions where `y_true` is nonzero — its value is unchanged when predictions
differ at masked positions — and when every `y_true` entry is 0 it returns
`np.nan` ("not computable", embedded as `none`), not zero and not an
exception; the `metrics.py` variant masks nothing and yields inf/NaN
contamination from zero denominators. -/
theorem mape_spec (yt yp₁ yp₂ : List ℚ)
    (h1 : yp₁.length = yt.length) (h2 : yp₂.length = yt.length)
    (hag : ∀ i, i < yt.length → yt.getD i 0 ≠ 0 → yp₁.getD i 0 = yp₂.getD i 0) :
    ((∀ t ∈ yt, t = 0) → mape yt yp₁ = none)
    ∧ mape yt yp₁ = mape yt yp₂ := by
  constructor
  · intro hz
    have hfil : (yt.zip yp₁).filter (fun tp => decide (tp.1 ≠ 0)) = [] := by
      rw [List.filter_eq_nil_iff]
      rintro ⟨x, y⟩ hmem
      have hx := hz x (List.of_mem_zip hmem).1
      simp [hx]
    simp only [mape, hfil]
    simp
  · have := zip_filter_agree yt yp₁ yp₂ h1 h2 hag
    simp only [mape, this]

/-- Witness for C9 (amended): `y_true = [0, 1]` with predictions `[5, 1]`
and `[7, 1]` differing only at the masked position. -/
theorem mape_spec_witness :
    ([5, 1] : List ℚ).length = ([0, 1] : List ℚ).length
    ∧ ([7, 1] : List ℚ).length = ([0, 1] : List ℚ).length
    ∧ (∀ i, i < ([0, 1] : List ℚ).length → ([0, 1] : List ℚ).getD i 0 ≠ 0 →
        ([5, 1] : List ℚ).getD i 0 = ([7, 1] : List ℚ).getD i 0)
    ∧ (((∀ t ∈ ([0, 1] : List ℚ), t = 0) → mape [0, 1] [5, 1] = none)
      ∧ mape [0, 1] [5, 1] = mape [0, 1] [7, 1]) :=
  ⟨by decide, by decide, by decide,
    mape_spec [0, 1] [5, 1] [7, 1] (by decide) (by decide) (by decide)⟩

/-! ## C7 / C8 infrastructure: dict and selection lemmas -/

lemma dictGet_isSome_of_mem {α : Type} (l : List (String × α)) (p : String × α)
    (h : p ∈ l) : (dictGet l p.1).isSome := by
  induction l with
  | nil => simp at h
  | cons q rest ih =>
      rw [dictGet]
      by_cases hq : q.1 = p.1
      · simp [hq]
      · rcases List.mem_cons.mp h with h1 | h1
        · exact absurd (congrArg Prod.fst h1.symm) hq
        · simpa [hq] using ih h1

lemma mem_keys_dictSet {α : Type} (l : List (String × α)) (k : String) (v : α)
    (a : String) (h : a ∈ (dictSet l k v).map Prod.fst) :
    a ∈ l.map Prod.fst ∨ a = k := by
  induction l with
  | nil =>
      simp [dictSet] at h
      exact Or.inr h
  | cons p rest ih =>
      by_cases hp : p.1 = k
      · rw [dictSet, if_pos hp] at h
        rw [List.map_cons, List.mem_cons] at h
        rcases h with h1 | h1
        · exact Or.inr h1
        · exact Or.inl (by rw [List.map_cons, List.mem_cons]; exact Or.inr h1)
      · rw [dictSet, if_neg hp] at h
        rw [List.map_cons, List.mem_cons] at h
        rcases h with h1 | h1
        · exact Or.inl (by rw [List.map_cons, List.mem_cons]; exact Or.inl h1)
        · rcases ih h1 with h2 | h2
          · exact Or.inl (by rw [List.map_cons, List.mem_cons]; exact Or.inr h2)
          · exact Or.inr h2

lemma nodup_keys_dictSet {α : Type} (l : List (String × α)) (k : String) (v : α)
    (h : (l.map Prod.fst).Nodup) : ((dictSet l k v).map Prod.fst).Nodup := by
  induction l with
  | nil => simp [dictSet]
  | cons p rest ih =>
      rw [List.map_cons] at h
      obtain ⟨hnot, hrest⟩ := List.nodup_cons.mp h
      by_cases hp : p.1 = k
      · rw [dictSet, if_pos hp, List.map_cons]
        exact List.nodup_cons.mpr ⟨hp ▸ hnot, hrest⟩
      · rw [dictSet, if_neg hp, List.map_cons]
        refine List.nodup_cons.mpr ⟨?_, ih hrest⟩
        intro hmem
        rcases mem_keys_dictSet rest k v p.1 hmem with h1 | h1
        · exact hnot h1
        · exact hp h1

lemma filter_key_dictSet {α : Type} (l : List (String × α)) (k : String) (v : α)
    (h : (l.map Prod.fst).Nodup) :
    (dictSet l k v).filter (fun p => decide (p.1 = k)) = [(k, v)] := by
  induction l with
  | nil => simp [dictSet]
  | cons p rest ih =>
      rw [List.map_cons] at h
      obtain ⟨hnot, hrest⟩ := List.nodup_cons.mp h
      by_cases hp : p.1 = k
      · rw [dictSet, if_pos hp]
        have hfil : rest.filter (fun p => decide (p.1 = k)) = [] := by
          rw [List.filter_eq_nil_iff]
          intro q hq
          simp only [decide_eq_true_eq]
          intro hqk
          exact (hp ▸ hnot) (hqk ▸ List.mem_map_of_mem Prod.fst hq)
        simp [List.filter_cons, hfil]
      · rw [dictSet, if_neg hp, List.filter_cons, if_neg (by simp [hp])]
        exact ih hrest

lemma filter_fst_map {α β : Type} (l : List (String × α)) (k : String)
    (g : String × α → String × β) (hg : ∀ p, (g p).1 = p.1) :
    (l.map g).filter (fun row => decide (row.1 = k)) =
      (l.filter (fun p => decide (p.1 = k))).map g := by
  induction l with
  | nil => simp
  | cons p rest ih =>
      simp only [List.map_cons, List.filter_cons]
      by_cases hp : p.1 = k
      · rw [if_pos (by simp [hg, hp]), if_pos (by simp [hp]), ih, List.map_cons]
      · rw [if_neg (by simp [hg, hp]), if_neg (by simp [hp]), ih]

lemma argminFirst_spec (best : String × ℚ) (l : List (String × ℚ)) :
    (argminFirst best l = best ∨ argminFirst best l ∈ l)
    ∧ (argminFirst best l).2 ≤ best.2
    ∧ ∀ q ∈ l, (argminFirst best l).2 ≤ q.2 := by
  induction l generalizing best with
  | nil => simp [argminFirst]
  | cons p rest ih =>
      rw [argminFirst]
      by_cases hc : p.2 < best.2
      · rw [if_pos hc]
        obtain ⟨hmem, hle, hall⟩ := ih p
        refine ⟨?_, le_trans hle (le_of_lt hc), ?_⟩
        · rcases hmem with h1 | h1
          · exact Or.inr (by rw [h1]; exact List.mem_cons_self p rest)
          · exact Or.inr (List.mem_cons_of_mem p h1)
        · intro q hq
          rcases List.mem_cons.mp hq with h1 | h1
          · exact h1 ▸ hle
          · exact hall q h1
      · rw [if_neg hc]
        obtain ⟨hmem, hle, hall⟩ := ih best
        refine ⟨?_, hle, ?_⟩
        · rcases hmem with h1 | h1
          · exact Or.inl h1
          · exact Or.inr (List.mem_cons_of_mem p h1)
        · intro q hq
          rcases List.mem_cons.mp hq with h1 | h1
          · exact h1 ▸ le_trans hle (le_of_not_lt hc)
          · exact hall q h1

lemma argmaxFirst_spec (best : String × ℚ) (l : List (String × ℚ)) :
    (argmaxFirst best l = best ∨ argmaxFirst best l ∈ l)
    ∧ best.2 ≤ (argmaxFirst best l).2
    ∧ ∀ q ∈ l, q.2 ≤ (argmaxFirst best l).2 := by
  induction l generalizing best with
  | nil => simp [argmaxFirst]
  | cons p rest ih =>
      rw [argmaxFirst]
      by_cases hc : best.2 < p.2
      · rw [if_pos hc]
        obtain ⟨hmem, hle, hall⟩ := ih p
        refine ⟨?_, le_trans (le_of_lt hc) hle, ?_⟩
        · rcases hmem with h1 | h1
          · exact Or.inr (by rw [h1]; exact List.mem_cons_self p rest)
          · exact Or.inr (List.mem_cons_of_mem p h1)
        · intro q hq
          rcases List.mem_cons.mp hq with h1 | h1
          · exact h1 ▸ hle
          · exact hall q h1
      · rw [if_neg hc]
        obtain ⟨hmem, hle, hall⟩ := ih best
        refine ⟨?_, hle, ?_⟩
        · rcases hmem with h1 | h1
          · exact Or.inl h1
          · exact Or.inr (List.mem_cons_of_mem p h1)
        · intro q hq
          rcases List.mem_cons.mp hq with h1 | h1
          · exact h1 ▸ le_trans (le_of_not_lt hc) hle
          · exact hall q h1

/-- The `scores` dict of `get_best`: name-value pairs of the registered
entries that carry the requested metric. -/
def scoresOf (r : RegistryA μ ν) (metric : String) : List (String × ℚ) :=
  r.metrics.filterMap (fun p => (dictGet p.2 metric).map (fun v => (p.1, v)))

/-- C8: whenever at least one registered entry carries the requested metric,
`get_best` returns an entry carrying that metric whose value is minimal
(`minimize = true`) or maximal (`minimize = false`) among all carried values;
whenever no entry carries it — the empty registry included — `get_best`
raises an error. -/
theorem get_best_spec (r : RegistryA μ ν) (metric : String) (minimize : Bool)
    (hwf : ∀ p ∈ r.metrics,
      (dictGet r.models p.1).isSome ∧ (dictGet r.metadata p.1).isSome) :
    (scoresOf r metric = [] → ∃ e, r.get_best metric minimize = .error e)
    ∧ ∀ s₀, s₀ ∈ scoresOf r metric →
        ∃ name m md ms v,
          r.get_best metric minimize = .ok (name, m, md, ms)
          ∧ (name, v) ∈ scoresOf r metric
          ∧ ∀ q ∈ scoresOf r metric,
              (minimize = true → v ≤ q.2) ∧ (minimize = false → q.2 ≤ v) := by
  constructor
  · intro hempty
    rw [scoresOf] at hempty
    rw [RegistryA.get_best]
    by_cases hm : r.metrics = []
    · rw [if_pos hm]
      exact ⟨_, rfl⟩
    · rw [if_neg hm, hempty]
      exact ⟨_, rfl⟩
  · intro s₀ hs₀
    rw [scoresOf] at hs₀
    have hmne : r.metrics ≠ [] := by
      intro h
      rw [h] at hs₀
      simp at hs₀
    rw [RegistryA.get_best, if_neg hmne]
    cases hsc : r.metrics.filterMap
        (fun p => (dictGet p.2 metric).map (fun v => (p.1, v))) with
    | nil =>
        rw [hsc] at hs₀
        simp at hs₀
    | cons s rest =>
        have hbestmem : (if minimize then argminFirst s rest else argmaxFirst s rest) ∈
            s :: rest := by
          cases minimize with
          | false =>
              rcases (argmaxFirst_spec s rest).1 with h1 | h1
              · rw [if_neg (by simp), h1]
                exact List.mem_cons_self s rest
              · rw [if_neg (by simp)]
                exact List.mem_cons_of_mem s h1
          | true =>
              rcases (argminFirst_spec s rest).1 with h1 | h1
              · rw [if_pos rfl, h1]
                exact List.mem_cons_self s rest
              · rw [if_pos rfl]
                exact List.mem_cons_of_mem s h1
        have hscores : (if minimize then argminFirst s rest else argmaxFirst s rest) ∈
            r.metrics.filterMap
              (fun p => (dictGet p.2 metric).map (fun v => (p.1, v))) := by
          rw [hsc]
          exact hbestmem
        obtain ⟨p, hpmem, hpeq⟩ := List.mem_filterMap.mp hscores
        obtain ⟨v0, hv0, hveq⟩ := Option.map_eq_some'.mp hpeq
        obtain ⟨hmod, hmd⟩ := hwf p hpmem
        obtain ⟨m, hmeq⟩ := Option.isSome_iff_exists.mp hmod
        obtain ⟨md, hmdeq⟩ := Option.isSome_iff_exists.mp hmd
        obtain ⟨ms, hmseq⟩ := Option.isSome_iff_exists.mp
          (dictGet_isSome_of_mem r.metrics p hpmem)
        have hkey : (if minimize then argminFirst s rest else argmaxFirst s rest).1 =
            p.1 := by
          rw [← hveq]
        dsimp only
        rw [hkey, hmeq, hmdeq, hmseq]
        refine ⟨p.1, m, md, ms,
          (if minimize then argminFirst s rest else argmaxFirst s rest).2, rfl, ?_, ?_⟩
        · rw [scoresOf, hsc, ← hkey]
          exact hbestmem
        · intro q hq
          rw [scoresOf, hsc] at hq
          constructor
          · intro hmin
            rw [hmin] at hkey ⊢
            rw [if_pos rfl]
            rcases List.mem_cons.mp hq with h1 | h1
            · rw [h1]
              exact (argminFirst_spec s rest).2.1
            · exact (argminFirst_spec s rest).2.2 q h1
          · intro hmax
            rw [hmax] at hkey ⊢
            rw [if_neg (by simp)]
            rcases List.mem_cons.mp hq with h1 | h1
            · rw [h1]
              exact (argmaxFirst_spec s rest).2.1
            · exact (argmaxFirst_spec s rest).2.2 q h1

/-- Registry with entries A (RMSE 5) and B (RMSE 2), the spec's example. -/
def sampleRegistryA : RegistryA Bool ℚ :=
  { models := [("A", true), ("B", false)],
    metadata := [("A", []), ("B", [])],
    metrics := [("A", [("RMSE", 5)]), ("B", [("RMSE", 2)])] }

/-- Witness for C8 on the registry `{A: RMSE=5, B: RMSE=2}` with
`get_best("RMSE", minimize=True)`. -/
theorem get_best_spec_witness :
    (∀ p ∈ sampleRegistryA.metrics,
      (dictGet sampleRegistryA.models p.1).isSome
      ∧ (dictGet sampleRegistryA.metadata p.1).isSome)
    ∧ ((scoresOf sampleRegistryA "RMSE" = [] →
          ∃ e, sampleRegistryA.get_best "RMSE" true = .error e)
      ∧ ∀ s₀, s₀ ∈ scoresOf sampleRegistryA "RMSE" →
          ∃ name m md ms v,
            sampleRegistryA.get_best "RMSE" true = .ok (name, m, md, ms)
            ∧ (name, v) ∈ scoresOf sampleRegistryA "RMSE"
            ∧ ∀ q ∈ scoresOf sampleRegistryA "RMSE",
                (true = true → v ≤ q.2) ∧ (true = false → q.2 ≤ v)) :=
  ⟨by decide, get_best_spec sampleRegistryA "RMSE" true (by decide)⟩

/-! ## C7: overwrite-on-collision and the collision warning -/

/-- C7 counterexample: in the persistence-aware registry, registering twice
under the identical name+run_id key overwrites the first entry (one summary
row, carrying the second registration's metrics) but emits no warning at
all — only an info line — contradicting the claimed logged warning. -/
theorem registryB_register_claim_false :
    (((RegistryB.empty (μ := Bool)).register (fun _ => false) "a" "r" true
          [("RMSE", 5)] []).1.register (fun _ => false) "a" "r" false
          [("RMSE", 2)] []).2.filter LogEvent.isWarning = []
    ∧ ((((RegistryB.empty (μ := Bool)).register (fun _ => false) "a" "r" true
          [("RMSE", 5)] []).1.register (fun _ => false) "a" "r" false
          [("RMSE", 2)] []).1.summary.map (fun e => e.metrics)) = [[("RMSE", 2)]] := by
  constructor
  · decide
  · decide

/-- C7 (amended): registering a second entry under an identical key
overwrites the first and never silently drops data — afterwards the store
holds exactly one binding for that key, carrying the second registration's
data. The name-keyed in-memory registry also emits a logged warning on
collision (its `register` takes no metrics, so the name's metric dict is
reset to empty); the persistence-aware registry overwrites without any
warning, logging only its usual info line, and `summary()` has exactly the
overwritten row for the key, carrying the second registration's metrics. -/
theorem registry_register_spec {κ : Type}
    (rA : RegistryA μ ν) (name : String) (m₁ m₂ : μ) (md₁ md₂ : List (String × ν))
    (rB : RegistryB κ) (kerasLike : κ → Bool) (nm rid : String) (b₁ b₂ : κ)
    (mets₁ mets₂ cfg₁ cfg₂ : List (String × ℚ))
    (hA : (rA.models.map Prod.fst).Nodup)
    (hB : (rB.runs.map Prod.fst).Nodup) :
    (((rA.register name m₁ md₁).1.register name m₂ md₂).2.filter
        LogEvent.isWarning ≠ []
      ∧ dictGet ((rA.register name m₁ md₁).1.register name m₂ md₂).1.models name =
          some m₂
      ∧ ((rA.register name m₁ md₁).1.register name m₂ md₂).1.summary.filter
          (fun row => decide (row.1 = name)) = [(name, md₂, [])])
    ∧ ((((rB.register kerasLike nm rid b₁ mets₁ cfg₁).1.register kerasLike nm rid
          b₂ mets₂ cfg₂).2.filter LogEvent.isWarning = [])
      ∧ ((((rB.register kerasLike nm rid b₁ mets₁ cfg₁).1.register kerasLike nm rid
          b₂ mets₂ cfg₂).1.runs.filter
            (fun p => decide (p.1 = nm ++ "::" ++ rid))).map (fun p => p.2.metrics) =
          [mets₂])
      ∧ ((rB.register kerasLike nm rid b₁ mets₁ cfg₁).1.register kerasLike nm rid
          b₂ mets₂ cfg₂).1.summary =
        ((rB.register kerasLike nm rid b₁ mets₁ cfg₁).1.register kerasLike nm rid
          b₂ mets₂ cfg₂).1.runs.map (fun p => p.2)) := by
  refine ⟨⟨?_, ?_, ?_⟩, ?_, ?_, rfl⟩
  · simp [RegistryA.register, dictGet_dictSet_self, LogEvent.isWarning]
  · simp [RegistryA.register, dictGet_dictSet_self]
  · show (((rA.register name m₁ md₁).1.register name m₂ md₂).1.models.map
        (fun p => (p.1,
          (dictGet ((rA.register name m₁ md₁).1.register name m₂ md₂).1.metadata p.1).getD [],
          (dictGet ((rA.register name m₁ md₁).1.register name m₂ md₂).1.metrics p.1).getD []))).filter
        (fun row => decide (row.1 = name)) = [(name, md₂, [])]
    rw [filter_fst_map ((rA.register name m₁ md₁).1.register name m₂ md₂).1.models name
      (fun p => (p.1,
        (dictGet ((rA.register name m₁ md₁).1.register name m₂ md₂).1.metadata p.1).getD [],
        (dictGet ((rA.register name m₁ md₁).1.register name m₂ md₂).1.metrics p.1).getD []))
      (fun p => rfl)]
    show ((dictSet (dictSet rA.models name m₁) name m₂).filter
        (fun p => decide (p.1 = name))).map _ = _
    rw [filter_key_dictSet _ _ _ (nodup_keys_dictSet _ _ _ hA)]
    simp [RegistryA.register, dictGet_dictSet_self]
  · simp [RegistryB.register, LogEvent.isWarning]
  · show ((dictSet (dictSet rB.runs (nm ++ "::" ++ rid) _) (nm ++ "::" ++ rid) _).filter
        (fun p => decide (p.1 = nm ++ "::" ++ rid))).map (fun p => p.2.metrics) = [mets₂]
    rw [filter_key_dictSet _ _ _ (nodup_keys_dictSet _ _ _ hB)]
    rfl

/-- State and logs after the in-memory registry registers name "a" twice. -/
def regA2 : RegistryA Bool ℚ × List LogEvent :=
  ((RegistryA.empty : RegistryA Bool ℚ).register "a" true [("x", 1)]).1.register
    "a" false [("y", 2)]

/-- State and logs after the persistence-aware registry registers the key
"a"+"r" twice. -/
def regB2 : RegistryB Bool × List LogEvent :=
  ((RegistryB.empty (μ := Bool)).register (fun _ => false) "a" "r" true
    [("RMSE", 5)] []).1.register (fun _ => false) "a" "r" false [("RMSE", 2)] []

/-- Witness for C7 (amended) on two fresh registries, registering twice
under key "a" (resp. "a"+"r"). -/
theorem registry_register_spec_witness :
    ((RegistryA.empty : RegistryA Bool ℚ).models.map Prod.fst).Nodup
    ∧ ((RegistryB.empty (μ := Bool)).runs.map Prod.fst).Nodup
    ∧ ((regA2.2.filter LogEvent.isWarning ≠ []
        ∧ dictGet regA2.1.models "a" = some false
        ∧ regA2.1.summary.filter (fun row => decide (row.1 = "a")) =
            [("a", [("y", 2)], [])])
      ∧ (regB2.2.filter LogEvent.isWarning = []
        ∧ (regB2.1.runs.filter (fun p => decide (p.1 = "a" ++ "::" ++ "r"))).map
            (fun p => p.2.metrics) = [[("RMSE", 2)]]
        ∧ regB2.1.summary = regB2.1.runs.map (fun p => p.2))) :=
  ⟨by decide, by decide,
    registry_register_spec (RegistryA.empty : RegistryA Bool ℚ) "a" true false
      [("x", 1)] [("y", 2)] (RegistryB.empty (μ := Bool)) (fun _ => false) "a" "r"
      true false [("RMSE", 5)] [("RMSE", 2)] [] [] (by decide) (by decide)⟩

end PMO
